import Mathlib

/-!
# Verification of the delivery-manifest route-sequencing engine

Shallow embedding of the route-optimization core of
`src/lambda/optimizedriverroutes/optimizedriverroutes.py`, together with
proofs and refutations of the specification claims about it.

Modelling conventions:

* Python floats (coordinates, distances, durations) are modelled as exact
  rationals (`ℚ`).  Every concrete input used below is a small integer, for
  which Python float arithmetic (add, subtract, multiply, compare) is exact,
  so the model and the source agree on all inputs appearing in the theorems.
* The source computes `dist = (dx**2 + dy**2) ** 0.5` and uses `dist` only in
  `<` comparisons against other such square roots (the initial bound
  `float('inf')` is modelled by `Option ℚ` with `none` for infinity).  Since
  `x ↦ √x` is strictly monotone on `[0, ∞)`, comparing the squared distances
  gives exactly the same control flow; we therefore keep the comparison
  metric as the squared Euclidean distance and stay inside `ℚ`.
* Python code that can raise an exception is modelled with `Option`:
  `none` means the Python code raised.
* Matrices are `List (List ℚ)` (numpy 2-d arrays); `len(m)` is `m.length`.
-/

/-- The provider waypoint limit `MAX_STOPS_PER_REQUEST = 25`. -/
def MAX_STOPS_PER_REQUEST : Nat := 25

/-- A coordinate, as the source uses it: a `(longitude, latitude)` pair. -/
abbrev Coord : Type := ℚ × ℚ

/-- The squared Euclidean distance
`(current_point[0] - point[0])**2 + (current_point[1] - point[1])**2`.
The source takes the square root of this before comparing; by monotonicity of
the square root the comparisons below are unchanged (see the module header). -/
def sqDist (a b : Coord) : ℚ :=
  (a.1 - b.1) * (a.1 - b.1) + (a.2 - b.2) * (a.2 - b.2)

/-- One iteration of the inner `for idx in remaining_points` scan of the
nearest-neighbor loop.  The accumulator is `(nearest_idx, min_distance)`,
where `none` in the first component models `nearest_idx = -1` and `none` in
the second models `min_distance = float('inf')` (any distance compares
`<` against infinity). -/
def nnScanStep (location_coords : List Coord) (current_point : Coord)
    (acc : Option Nat × Option ℚ) (idx : Nat) : Option Nat × Option ℚ :=
  let point := location_coords.getD idx (0, 0)
  let dist := sqDist current_point point
  match acc.2 with
  | none => (some idx, some dist)
  | some m => if dist < m then (some idx, some dist) else acc

/-- The inner scan of the nearest-neighbor loop of
`optimize_route_with_routes_api` (source lines 242–252): find the nearest
unvisited point.  Returns `none` exactly when `remaining` is empty
(in the source, `nearest_idx` stays `-1` only in that case, since any real
distance is `< float('inf')`). -/
def findNearest (location_coords : List Coord) (current_point : Coord)
    (remaining : List Nat) : Option Nat :=
  (remaining.foldl (nnScanStep location_coords current_point) (none, none)).1

/-- The `while remaining_points:` loop of `optimize_route_with_routes_api`
(source lines 241–258), written with explicit fuel.  Each iteration of the
source loop removes exactly one element from `remaining_points` (the `if
nearest_idx != -1` guard always fires on a nonempty set), so running the
loop with `fuel = remaining.length` computes exactly the route the source
computes; `nnLoop_perm` below proves the fuel suffices. -/
def nnLoopFuel (location_coords : List Coord) :
    Nat → Coord → List Nat → List Nat
  | 0, _, _ => []
  | fuel + 1, current_point, remaining =>
    match findNearest location_coords current_point remaining with
    | none => []
    | some nearest_idx =>
        nearest_idx ::
          nnLoopFuel location_coords fuel
            (location_coords.getD nearest_idx (0, 0))
            (remaining.erase nearest_idx)

/-- The nearest-neighbor algorithm of `optimize_route_with_routes_api`
(source lines 232–261): start from the depot, repeatedly visit the nearest
unvisited stop.  `remaining_points = list(range(len(location_coords)))`. -/
def nearestNeighborRoute (start_coords : Coord) (location_coords : List Coord) :
    List Nat :=
  nnLoopFuel location_coords location_coords.length start_coords
    (List.range location_coords.length)

/-- Inner scan of the nearest-neighbor loop of
`optimize_chunk_with_routes_api` (source lines 277–284) — the source
duplicates the loop body of `optimize_route_with_routes_api` verbatim, so
this is a second copy of the same code. -/
def chunkScanStep (chunk_coords : List Coord) (current_point : Coord)
    (acc : Option Nat × Option ℚ) (idx : Nat) : Option Nat × Option ℚ :=
  let point := chunk_coords.getD idx (0, 0)
  let dist := sqDist current_point point
  match acc.2 with
  | none => (some idx, some dist)
  | some m => if dist < m then (some idx, some dist) else acc

/-- The `nearest_idx` selection of `optimize_chunk_with_routes_api`. -/
def chunkFindNearest (chunk_coords : List Coord) (current_point : Coord)
    (remaining : List Nat) : Option Nat :=
  (remaining.foldl (chunkScanStep chunk_coords current_point) (none, none)).1

/-- The `while remaining_points:` loop of `optimize_chunk_with_routes_api`
(source lines 273–290), fueled exactly like `nnLoopFuel`. -/
def chunkLoopFuel (chunk_coords : List Coord) :
    Nat → Coord → List Nat → List Nat
  | 0, _, _ => []
  | fuel + 1, current_point, remaining =>
    match chunkFindNearest chunk_coords current_point remaining with
    | none => []
    | some nearest_idx =>
        nearest_idx ::
          chunkLoopFuel chunk_coords fuel
            (chunk_coords.getD nearest_idx (0, 0))
            (remaining.erase nearest_idx)

/-- The function `optimize_chunk_with_routes_api(start_coords, chunk_coords, api_key)`
(source lines 263–293): nearest-neighbor over one chunk.  The `api_key`
parameter is unused by the source body and omitted. -/
def optimize_chunk_with_routes_api (start_coords : Coord)
    (chunk_coords : List Coord) : List Nat :=
  chunkLoopFuel chunk_coords chunk_coords.length start_coords
    (List.range chunk_coords.length)

/-! ## Clarke-Wright savings algorithm (source lines 118–196) -/

/-- Matrix cell access `m[i][j]` for a numpy array modelled as a list of
rows; all accesses made by the source are in range for the square matrices
it builds, so the default `0` is never consulted on reachable inputs. -/
def matCell (m : List (List ℚ)) (i j : Nat) : ℚ :=
  (m.getD i []).getD j 0

/-- A savings entry `(i, j, saving)` (source lines 128–135). -/
abbrev SavingsEntry : Type := Nat × Nat × ℚ

/-- The savings list: for `i in range(1, n)`, `j in range(i+1, n)`,
`saving = duration_matrix[start_idx][i] + duration_matrix[start_idx][j]
- duration_matrix[i][j]` (source lines 128–135). -/
def savingsList (start_idx n : Nat) (duration_matrix : List (List ℚ)) :
    List SavingsEntry :=
  (List.range' 1 (n - 1)).flatMap fun i =>
    (List.range' (i + 1) (n - 1 - i)).map fun j =>
      (i, j, matCell duration_matrix start_idx i
              + matCell duration_matrix start_idx j
              - matCell duration_matrix i j)

/-- Stable insertion into a list sorted by saving score descending: `x` goes
in front of the first entry whose score is `≤` its own.  Elements inserted
later in `sortSavingsDesc` are earlier in the original list, so this
reproduces the stable descending order of Python's
`savings.sort(key=lambda x: x[2], reverse=True)` (source line 138). -/
def insertSavingDesc (x : SavingsEntry) : List SavingsEntry → List SavingsEntry
  | [] => [x]
  | y :: ys => if x.2.2 ≥ y.2.2 then x :: y :: ys else y :: insertSavingDesc x ys

/-- Stable sort of the savings list by score descending (source line 138). -/
def sortSavingsDesc : List SavingsEntry → List SavingsEntry
  | [] => []
  | x :: xs => insertSavingDesc x (sortSavingsDesc xs)

/-- The `for idx, route in enumerate(routes)` scan (source lines 151–155):
the index of the route containing `x`; the Python loop keeps overwriting, so
the *last* matching index wins.  `none` models Python's `route_i = None`
surviving the scan. -/
def lastRouteContaining (routes : List (List Nat)) (x : Nat) : Option Nat :=
  (routes.foldl
    (fun (acc : Option Nat × Nat) r =>
      ((if x ∈ r then some acc.2 else acc.1), acc.2 + 1))
    (none, 0)).1

/-- One iteration of the `for i, j, _ in savings:` merge loop (source lines
146–186) on the mutable `routes` list.  Returns `none` when the source would
raise: if exactly one of `route_i`, `route_j` is `None`, the source evaluates
`routes[None][0]` and raises `TypeError`.  (`routes[route_i][0]` and `[-1]`
on a located route never raise, since a located route contains `i` and is
therefore nonempty; they are modelled with `head?`/`getLast?`.) -/
def savingsMergeStep (routes : List (List Nat)) (i j : Nat) :
    Option (List (List Nat)) :=
  let route_i := lastRouteContaining routes i
  let route_j := lastRouteContaining routes j
  if route_i = route_j then
    some routes
  else
    match route_i, route_j with
    | some a, some b =>
      let ra := routes.getD a []
      let rb := routes.getD b []
      let i_at_end := ra.head? = some i ∨ ra.getLast? = some i
      let j_at_end := rb.head? = some j ∨ rb.getLast? = some j
      if i_at_end ∧ j_at_end then
        let routes' :=
          if ra.head? = some i then
            if rb.head? = some j then
              -- reverse route_j in place, then extend it with route_i
              routes.set b (rb.reverse ++ ra)
            else
              -- extend route_j with route_i
              routes.set b (rb ++ ra)
          else
            if rb.head? = some j then
              -- extend route_i with route_j
              routes.set a (ra ++ rb)
            else
              -- reverse route_i in place, then extend it with route_j
              routes.set a (ra.reverse ++ rb)
        -- routes.pop(max(route_i, route_j))
        some (routes'.eraseIdx (max a b))
      else
        some routes
    | _, _ => none

/-- The whole `for i, j, _ in savings:` loop, threading the possible raise. -/
def savingsMergeLoop : List SavingsEntry → List (List Nat) →
    Option (List (List Nat))
  | [], routes => some routes
  | (i, j, _) :: rest, routes =>
    match savingsMergeStep routes i j with
    | none => none
    | some routes' => savingsMergeLoop rest routes'

/-- The function `optimize_with_savings_algorithm(start_idx, distance_matrix,
duration_matrix)` (source lines 118–196).  `n = len(distance_matrix)`;
`n ≤ 2` returns `list(range(1, n))` unadjusted; otherwise the sorted savings
are merged and the concatenated chains are shifted down by one
(`[i - 1 for i in final_route]`; chain elements are always ≥ 1, so `Nat`
subtraction is exact).  `none` models an uncaught Python exception. -/
def optimize_with_savings_algorithm (start_idx : Nat)
    (distance_matrix duration_matrix : List (List ℚ)) : Option (List Nat) :=
  let n := distance_matrix.length
  if n ≤ 2 then
    some (List.range' 1 (n - 1))
  else
    let savings := sortSavingsDesc (savingsList start_idx n duration_matrix)
    let routes := (List.range' 1 (n - 1)).map fun i => [i]
    match savingsMergeLoop savings routes with
    | none => none
    | some final_routes => some ((final_routes.flatten).map (· - 1))

/-! ## Route-level optimizer with chunking (source lines 198–261) -/

/-- The slicing comprehension
`[optimized_indices[i:i+chunk_size] for i in range(0, len(optimized_indices), chunk_size)]`
(source line 222).  `range(0, len, step)` has `⌈len / step⌉` elements, and
`l[i:i+s]` is `(l.drop i).take s`. -/
def pySlices (chunk_size : Nat) (l : List Nat) : List (List Nat) :=
  (List.range' 0 ((l.length + chunk_size - 1) / chunk_size) chunk_size).map
    fun i => (l.drop i).take chunk_size

/-- The function `optimize_route_with_routes_api(start_coords, location_coords, api_key)`
(source lines 198–261).  The call
`calculate_distance_matrix(all_coords, api_key)` performs network I/O; its
result is abstracted as the `provider` argument: `none` models the
`(None, None)` failure return, `some (dm, dm')` a successful pair of
matrices for `all_coords = [start_coords] + location_coords`
(size `len(location_coords) + 1`, used by the savings algorithm through
`len(distance_matrix)`).  The overall `none` result models an uncaught
exception escaping from the savings algorithm. -/
def optimize_route_with_routes_api (start_coords : Coord)
    (location_coords : List Coord)
    (provider : Option (List (List ℚ) × List (List ℚ))) : Option (List Nat) :=
  let total_locations := location_coords.length + 1
  if total_locations > MAX_STOPS_PER_REQUEST + 1 then
    match provider with
    | none =>
      -- "Failed to calculate distance matrix. Falling back to default order."
      some (List.range location_coords.length)
    | some (distance_matrix, duration_matrix) =>
      match optimize_with_savings_algorithm 0 distance_matrix duration_matrix with
      | none => none
      | some optimized_indices =>
        let chunk_size := MAX_STOPS_PER_REQUEST - 1
        let chunks := pySlices chunk_size optimized_indices
        -- for chunk in chunks: refined = optimize_chunk(...);
        --   refined_indices.extend([chunk[i] for i in refined])
        some (chunks.foldl
          (fun refined_indices chunk =>
            let chunk_coords := chunk.map fun i => location_coords.getD i (0, 0)
            let refined_chunk :=
              optimize_chunk_with_routes_api start_coords chunk_coords
            refined_indices ++ refined_chunk.map fun i => chunk.getD i 0)
          [])
  else
    some (nearestNeighborRoute start_coords location_coords)

/-! ## Matrix builder (`calculate_distance_matrix`, source lines 55–116) -/

/-- One element of a Distance Matrix API response row.  `distanceValue` and
`durationValue` model `element.get("distance", {}).get("value", 0)` and the
analogous duration lookup, already defaulted to `0`.  `durationInTraffic`
is `some t` when the key `"duration_in_traffic"` is present, and `t` is
`some v` when that sub-dict carries a `"value"` (the source falls back to
the base duration when it does not). -/
structure MatrixElement where
  status : String
  distanceValue : ℚ
  durationValue : ℚ
  durationInTraffic : Option (Option ℚ)
deriving DecidableEq

/-- The decoded JSON body of a Distance Matrix API response. -/
structure DMResponseData where
  status : String
  rows : List (List MatrixElement)
deriving DecidableEq

/-- Outcome of `urllib.request.urlopen` + `json.loads` for the matrix
request: either the decoded body, or a raised exception (transport error,
bad JSON, timeout, …). -/
inductive DMResponse where
  | exn : DMResponse
  | ok : DMResponseData → DMResponse
deriving DecidableEq

/-- The duration stored for an element with `status == "OK"`: the base
duration, overridden by `duration_in_traffic["value"]` when the
`"duration_in_traffic"` key is present (source lines 96–102). -/
def elementDuration (e : MatrixElement) : ℚ :=
  match e.durationInTraffic with
  | some t => t.getD e.durationValue
  | none => e.durationValue

/-- Whether processing the rows would assign outside the
`np.zeros((matrix_size, matrix_size))` arrays and raise `IndexError`
(which the enclosing `except` turns into the `(None, None)` return):
an assignment happens exactly for elements with `status == "OK"`. -/
def hasOutOfBoundsWrite (matrix_size : Nat) (rows : List (List MatrixElement)) :
    Bool :=
  rows.enum.any fun p =>
    p.2.enum.any fun q =>
      q.2.status == "OK" && (matrix_size ≤ p.1 || matrix_size ≤ q.1)

/-- The matrix built from the rows: cell `(i, j)` is the assigned value when
row `i` carries an `"OK"` element `j`, and the `np.zeros` initial value
otherwise (source lines 88–105). -/
def buildMatrix (matrix_size : Nat) (rows : List (List MatrixElement))
    (pick : MatrixElement → ℚ) : List (List ℚ) :=
  (List.range matrix_size).map fun i =>
    (List.range matrix_size).map fun j =>
      match rows.get? i with
      | none => 0
      | some row =>
        match row.get? j with
        | none => 0
        | some e => if e.status = "OK" then pick e else 0

/-- The function `calculate_distance_matrix(locations, api_key)` (source lines 55–116),
with the network interaction abstracted as the `resp` argument.  The whole
body sits inside `try ... except Exception: return None, None`, so *every*
failure — transport error, decode error, non-`"OK"` top-level status, or an
`IndexError` while filling the arrays — yields the `(None, None)` return
(modelled `none`); the function never propagates an exception. -/
def calculate_distance_matrix (locations : List Coord) (resp : DMResponse) :
    Option (List (List ℚ) × List (List ℚ)) :=
  match resp with
  | .exn => none
  | .ok data =>
    if data.status = "OK" then
      let matrix_size := locations.length
      if hasOutOfBoundsWrite matrix_size data.rows then
        none
      else
        some (buildMatrix matrix_size data.rows (fun e => e.distanceValue),
              buildMatrix matrix_size data.rows elementDuration)
    else
      none

/-! ## ETA estimator (source lines 340–380 and 533–544) -/

/-- Python's `f"{n:02d}"` on a nonnegative int: zero-pad to two digits. -/
def fmt2 (n : Nat) : String :=
  if n < 10 then "0" ++ toString n else toString n

/-- The timing loop of `export_driver_routes_to_csv` (source lines 343–369)
for `k` sequenced deliveries: `start_time = 9 * 60`; at index `idx` the
drive time is 20 minutes from the depot (`idx == 0`) and 8 minutes between
stops, plus a 5-minute service time accumulated after each arrival.  Returns
the list of formatted `EstimatedArrivalTime` strings. -/
def etaArrivalsAux : Nat → Nat → Nat → List String
  | _, 0, _ => []
  | idx, remaining + 1, cumulative_time =>
    let drive_time := if idx = 0 then 20 else 8
    let service_time := 5
    let cumulative_time' := cumulative_time + drive_time
    let arrival_minutes := 9 * 60 + cumulative_time'
    let hours := arrival_minutes / 60
    let minutes := arrival_minutes % 60
    (fmt2 hours ++ ":" ++ fmt2 minutes) ::
      etaArrivalsAux (idx + 1) remaining (cumulative_time' + service_time)

/-- Per-stop estimated arrival times for a route of `k` sequenced stops. -/
def etaArrivals (k : Nat) : List String :=
  etaArrivalsAux 0 k 0

/-- The one-way trip duration computed in `lambda_handler` (source lines
533–544): `depot_to_first_time + (num_stops - 1) * avg_drive_time +
num_stops * avg_service_time`, with no depot-return leg.  Python ints are
modelled as `ℤ`. -/
def estimatedRouteDuration (num_stops : ℤ) : ℤ :=
  20 + (num_stops - 1) * 8 + num_stops * 5

/-! ## Helper lemmas about the nearest-neighbor scan -/

/-- Once the scan accumulator holds a candidate, it keeps holding one. -/
lemma nnScan_fold_some (c : List Coord) (p : Coord) :
    ∀ (l : List Nat) (a : Nat) (m : ℚ),
      ∃ b m', l.foldl (nnScanStep c p) (some a, some m) = (some b, some m') := by
  intro l
  induction l with
  | nil => exact fun a m => ⟨a, m, rfl⟩
  | cons x xs ih =>
    intro a m
    rw [List.foldl_cons]
    by_cases h : sqDist p (c.getD x (0, 0)) < m
    · have hstep : nnScanStep c p (some a, some m) x
          = (some x, some (sqDist p (c.getD x (0, 0)))) := by
        show (if sqDist p (c.getD x (0, 0)) < m
            then (some x, some (sqDist p (c.getD x (0, 0))))
            else (some a, some m)) = _
        rw [if_pos h]
      rw [hstep]
      exact ih x _
    · have hstep : nnScanStep c p (some a, some m) x = (some a, some m) := by
        show (if sqDist p (c.getD x (0, 0)) < m
            then (some x, some (sqDist p (c.getD x (0, 0))))
            else (some a, some m)) = _
        rw [if_neg h]
      rw [hstep]
      exact ih a m

/-- The scan returns no candidate exactly on the empty unvisited set. -/
lemma findNearest_eq_none_iff (c : List Coord) (p : Coord) (r : List Nat) :
    findNearest c p r = none ↔ r = [] := by
  cases r with
  | nil => simp [findNearest]
  | cons x xs =>
    unfold findNearest
    rw [List.foldl_cons]
    obtain ⟨b, m', hb⟩ := nnScan_fold_some c p xs x (sqDist p (c.getD x (0, 0)))
    have hstep : nnScanStep c p (none, none) x
        = (some x, some (sqDist p (c.getD x (0, 0)))) := rfl
    rw [hstep, hb]
    simp

/-- A candidate produced by the scan is a member of the scanned list. -/
lemma nnScan_fold_mem (c : List Coord) (p : Coord) :
    ∀ (l : List Nat) (acc : Option Nat × Option ℚ) (i : Nat),
      (l.foldl (nnScanStep c p) acc).1 = some i → acc.1 = some i ∨ i ∈ l := by
  intro l
  induction l with
  | nil => exact fun acc i h => Or.inl h
  | cons x xs ih =>
    intro acc i h
    rw [List.foldl_cons] at h
    rcases ih _ i h with h' | h'
    · unfold nnScanStep at h'
      rcases hm : acc.2 with _ | m
      · rw [hm] at h'
        have hx : x = i := by simpa using h'
        rw [← hx]
        exact Or.inr (List.mem_cons_self x xs)
      · rw [hm] at h'
        by_cases hlt : sqDist p (c.getD x (0, 0)) < m
        · simp only [if_pos hlt] at h'
          have hx : x = i := by simpa using h'
          rw [← hx]
          exact Or.inr (List.mem_cons_self x xs)
        · simp only [if_neg hlt] at h'
          exact Or.inl h'
    · exact Or.inr (List.mem_cons_of_mem x h')

/-- The selected nearest index is one of the unvisited indices. -/
lemma findNearest_mem (c : List Coord) (p : Coord) (r : List Nat) (i : Nat)
    (h : findNearest c p r = some i) : i ∈ r := by
  rcases nnScan_fold_mem c p r (none, none) i h with h' | h'
  · exact absurd h' (by simp)
  · exact h'

/-- The fueled loop with enough fuel visits exactly the unvisited indices:
its output is a permutation of `remaining`. -/
lemma nnLoopFuel_perm (c : List Coord) :
    ∀ (fuel : Nat) (cur : Coord) (r : List Nat), r.length ≤ fuel →
      (nnLoopFuel c fuel cur r).Perm r := by
  intro fuel
  induction fuel with
  | zero =>
    intro cur r h
    have hr : r = [] := List.length_eq_zero.mp (Nat.le_zero.mp h)
    subst hr
    simp [nnLoopFuel]
  | succ f ih =>
    intro cur r h
    unfold nnLoopFuel
    cases hf : findNearest c cur r with
    | none =>
      have hr : r = [] := (findNearest_eq_none_iff c cur r).mp hf
      subst hr
      rfl
    | some i =>
      have hmem : i ∈ r := findNearest_mem c cur r i hf
      have hpos : 1 ≤ r.length := List.length_pos.mpr (List.ne_nil_of_mem hmem)
      have hlen : (r.erase i).length ≤ f := by
        rw [List.length_erase_of_mem hmem]
        omega
      have hrec := ih (c.getD i (0, 0)) (r.erase i) hlen
      exact (hrec.cons i).trans (List.perm_cons_erase hmem).symm

/-- The output of the full nearest-neighbor route is a permutation of
`{0, …, k − 1}` for `k` input stops. -/
lemma nearestNeighborRoute_perm (start : Coord) (coords : List Coord) :
    (nearestNeighborRoute start coords).Perm (List.range coords.length) := by
  unfold nearestNeighborRoute
  exact nnLoopFuel_perm coords coords.length start (List.range coords.length)
    (by simp)

/-- The comparison metric the scan applies to index `k`: the squared
Euclidean distance from the current position to `location_coords[k]`. -/
def nnDist (c : List Coord) (p : Coord) (k : Nat) : ℚ :=
  sqDist p (c.getD k (0, 0))

/-- Invariant of the scan fold: starting from a candidate `b` (with the
unscanned indices all above `b` and strictly sorted), the scan returns the
first-encountered index of minimal distance: a minimizer over `{b} ∪ l`
that wins every tie against later indices. -/
lemma nnScan_fold_first_min (c : List Coord) (p : Coord) :
    ∀ (l : List Nat) (b : Nat),
      (∀ j ∈ l, b < j) → l.Pairwise (· < ·) →
      ∀ i, (l.foldl (nnScanStep c p) (some b, some (nnDist c p b))).1 = some i →
        (i = b ∨ i ∈ l) ∧ nnDist c p i ≤ nnDist c p b ∧
        (nnDist c p i = nnDist c p b → i = b) ∧
        ∀ j ∈ l, nnDist c p i ≤ nnDist c p j ∧
          (nnDist c p i = nnDist c p j → i ≤ j) := by
  intro l
  induction l with
  | nil =>
    intro b _ _ i h
    have hib : i = b := by simpa using h.symm
    subst hib
    exact ⟨Or.inl rfl, le_refl _, fun _ => rfl,
      fun j hj => absurd hj (List.not_mem_nil j)⟩
  | cons x xs ih =>
    intro b hb hsort i h
    rw [List.foldl_cons] at h
    have hbx : b < x := hb x (List.mem_cons_self x xs)
    obtain ⟨hx, hxs⟩ := List.pairwise_cons.mp hsort
    by_cases hlt : nnDist c p x < nnDist c p b
    · have hstep : nnScanStep c p (some b, some (nnDist c p b)) x
          = (some x, some (nnDist c p x)) := by
        show (if nnDist c p x < nnDist c p b
            then (some x, some (nnDist c p x))
            else (some b, some (nnDist c p b))) = _
        rw [if_pos hlt]
      rw [hstep] at h
      have Q := ih x hx hxs i h
      refine ⟨?_, ?_, ?_, ?_⟩
      · rcases Q.1 with h' | h'
        · rw [h']
          exact Or.inr (List.mem_cons_self x xs)
        · exact Or.inr (List.mem_cons_of_mem x h')
      · exact le_trans Q.2.1 (le_of_lt hlt)
      · intro he
        exact absurd he (ne_of_lt (lt_of_le_of_lt Q.2.1 hlt))
      · intro j hj
        rcases List.mem_cons.mp hj with h' | h'
        · rw [h']
          exact ⟨Q.2.1, fun he => le_of_eq (Q.2.2.1 he)⟩
        · exact Q.2.2.2 j h'
    · have hstep : nnScanStep c p (some b, some (nnDist c p b)) x
          = (some b, some (nnDist c p b)) := by
        show (if nnDist c p x < nnDist c p b
            then (some x, some (nnDist c p x))
            else (some b, some (nnDist c p b))) = _
        rw [if_neg hlt]
      rw [hstep] at h
      have Q := ih b (fun j hj => hb j (List.mem_cons_of_mem x hj)) hxs i h
      refine ⟨?_, Q.2.1, Q.2.2.1, ?_⟩
      · rcases Q.1 with h' | h'
        · exact Or.inl h'
        · exact Or.inr (List.mem_cons_of_mem x h')
      · intro j hj
        rcases List.mem_cons.mp hj with h' | h'
        · subst h'
          have h2 : nnDist c p b ≤ nnDist c p j := not_lt.mp hlt
          refine ⟨le_trans Q.2.1 h2, fun he => ?_⟩
          have h3 : nnDist c p i = nnDist c p b :=
            le_antisymm Q.2.1 (he ▸ h2)
          rw [Q.2.2.1 h3]
          exact le_of_lt hbx
        · exact Q.2.2.2 j h'

/-- The scan selects a member of the unvisited set of minimal distance,
breaking ties in favour of the smallest (first-encountered) index, provided
the unvisited set is listed in strictly increasing order — which `range`
and `erase` maintain throughout the algorithm. -/
lemma findNearest_first_min (c : List Coord) (p : Coord) (r : List Nat)
    (hsort : r.Pairwise (· < ·)) (i : Nat) (h : findNearest c p r = some i) :
    i ∈ r ∧ ∀ j ∈ r, nnDist c p i ≤ nnDist c p j ∧
      (nnDist c p j = nnDist c p i → i ≤ j) := by
  cases r with
  | nil => exact absurd h (by simp [findNearest])
  | cons x xs =>
    unfold findNearest at h
    rw [List.foldl_cons] at h
    have hstep : nnScanStep c p (none, none) x
        = (some x, some (nnDist c p x)) := rfl
    rw [hstep] at h
    obtain ⟨hx, hxs⟩ := List.pairwise_cons.mp hsort
    have Q := nnScan_fold_first_min c p xs x hx hxs i h
    refine ⟨?_, ?_⟩
    · rcases Q.1 with h' | h'
      · rw [h']
        exact List.mem_cons_self x xs
      · exact List.mem_cons_of_mem x h'
    · intro j hj
      rcases List.mem_cons.mp hj with h' | h'
      · rw [h']
        exact ⟨Q.2.1, fun he => le_of_eq (Q.2.2.1 he.symm)⟩
      · exact ⟨(Q.2.2.2 j h').1, fun he => (Q.2.2.2 j h').2 he.symm⟩

/-! ## Equivalence of the two duplicated nearest-neighbor loops -/

/-- The two verbatim-duplicated inner scans are the same function. -/
lemma chunkScanStep_eq : @chunkScanStep = @nnScanStep := rfl

/-- The two verbatim-duplicated selection functions are the same function. -/
lemma chunkFindNearest_eq : @chunkFindNearest = @findNearest := rfl

/-- The two verbatim-duplicated while-loops compute the same route. -/
lemma chunkLoopFuel_eq (c : List Coord) :
    ∀ (fuel : Nat) (cur : Coord) (r : List Nat),
      chunkLoopFuel c fuel cur r = nnLoopFuel c fuel cur r := by
  intro fuel
  induction fuel with
  | zero => intro cur r; rfl
  | succ f ih =>
    intro cur r
    unfold chunkLoopFuel nnLoopFuel
    rw [chunkFindNearest_eq]
    cases findNearest c cur r with
    | none => rfl
    | some i => simp only [ih]

/-! ## Cell access into the built matrices -/

/-- Reading a cell of a built matrix inside its bounds returns the value the
row data assigned (or the `np.zeros` initial value). -/
lemma matCell_buildMatrix (size : Nat) (rows : List (List MatrixElement))
    (pick : MatrixElement → ℚ) (i j : Nat) (hi : i < size) (hj : j < size) :
    matCell (buildMatrix size rows pick) i j
      = match rows.get? i with
        | none => 0
        | some row =>
          match row.get? j with
          | none => 0
          | some e => if e.status = "OK" then pick e else 0 := by
  unfold matCell buildMatrix
  simp only [List.getD_eq_getElem?_getD, List.getElem?_map,
    List.getElem?_range hi, List.getElem?_range hj, Option.map_some',
    Option.getD_some]

/-! ## Evaluation helpers for all-zero duration matrices

Python-float addition is modelled by `Rat` addition, which the kernel does
not evaluate definitionally; for the concrete all-zero matrices used below
we therefore first rewrite every savings score to the literal `0`, after
which the remaining computation is kernel-evaluable. -/

/-- The savings pairs of an all-zero duration matrix, with literal scores. -/
def zeroSavingsPairs (n : Nat) : List SavingsEntry :=
  (List.range' 1 (n - 1)).flatMap fun i =>
    (List.range' (i + 1) (n - 1 - i)).map fun j => (i, j, (0 : ℚ))

/-- Every cell of the all-zero matrix reads as `0`. -/
lemma matCell_replicate_zero (n i j : Nat) :
    matCell (List.replicate n (List.replicate n (0 : ℚ))) i j = 0 := by
  unfold matCell
  simp only [List.getD_eq_getElem?_getD, List.getElem?_replicate]
  by_cases hi : i < n
  · by_cases hj : j < n <;> simp [hi, hj]
  · simp [hi]

set_option maxRecDepth 4000 in
/-- On the all-zero duration matrix every savings score evaluates to `0`. -/
lemma savingsList_zero (n : Nat) :
    savingsList 0 n (List.replicate n (List.replicate n (0 : ℚ)))
      = zeroSavingsPairs n := by
  unfold savingsList zeroSavingsPairs
  simp only [matCell_replicate_zero, add_zero, sub_zero]

set_option maxRecDepth 40000 in
/-- The Savings Merge Optimizer on the 27×27 all-zero matrices returns
`[0]`, dropping 24 of the 25 non-depot stops. -/
lemma savings_zero27 :
    optimize_with_savings_algorithm 0
        (List.replicate 27 (List.replicate 27 (0 : ℚ)))
        (List.replicate 27 (List.replicate 27 (0 : ℚ)))
      = some [0] := by
  simp only [optimize_with_savings_algorithm, List.length_replicate]
  rw [if_neg (by decide), savingsList_zero]
  decide

/-! ## The claims -/

/-- **C1** (code bug).  The claim states that both optimizers always return a
permutation of `{0, …, n−1}`.  The Nearest-Neighbor optimizer does (see
`c7_nn_terminates_permutation`), but the Savings Merge Optimizer does not:
`routes.pop(max(route_i, route_j))` (source line 186) pops the *merged*
chain instead of the absorbed one whenever the merged-into chain sits at the
larger index, losing its stops.  Already for the 3×3 all-zero matrices (two
non-depot stops) the single merge of `[1]` and `[2]` builds `[2, 1]` at
index 1 and then pops index 1, so the function returns `[0]` — stop `1` is
dropped and the output is not a permutation of `{0, 1}`. -/
theorem c1_savings_not_permutation :
    optimize_with_savings_algorithm 0
        (List.replicate 3 (List.replicate 3 0))
        (List.replicate 3 (List.replicate 3 0))
      = some [0]
    ∧ ¬ ([0] : List Nat).Perm (List.range 2) := by
  refine ⟨rfl, ?_⟩
  decide

/-- **C2** (code bug).  The claim states that on 0 or 1 non-depot stops the
Savings Merge Optimizer returns the identity permutation `[]` resp. `[0]` of
the 0-based stop-local indices.  The `n <= 2` early return (source lines
124–125) returns `list(range(1, n))` *without* the `[i - 1 for i in
final_route]` depot adjustment applied on the main path (source line 194),
so for one non-depot stop it returns `[1]`, not `[0]` (the 0-stop half,
`[]`, is correct). -/
theorem c2_trivial_case_unadjusted :
    optimize_with_savings_algorithm 0 [[0, 0], [0, 0]] [[0, 0], [0, 0]]
      = some [1]
    ∧ optimize_with_savings_algorithm 0 [[0]] [[0]] = some []
    ∧ ([1] : List Nat) ≠ [0] := by
  refine ⟨rfl, rfl, ?_⟩
  decide

set_option maxRecDepth 100000 in
/-- **C3** (code bug).  The claim states that for `n > 25` stops the chunked
path returns `⌈n / 24⌉` chunks concatenating to a permutation of all `n`
global indices.  The chunk partitioner itself slices faithfully, but its
seed — the Savings Merge output — already lost stops (see
`c1_savings_not_permutation`), so for 26 stops with all-zero 27×27 provider
matrices the seed is `[0]`, a single chunk is formed instead of
`⌈26 / 24⌉ = 2`, and the returned sequence is `[0]`, not a permutation of
`{0, …, 25}`. -/
theorem c3_chunked_route_loses_stops :
    optimize_route_with_routes_api (0, 0) (List.replicate 26 ((0 : ℚ), (0 : ℚ)))
        (some (List.replicate 27 (List.replicate 27 (0 : ℚ)),
               List.replicate 27 (List.replicate 27 (0 : ℚ))))
      = some [0]
    ∧ (pySlices (MAX_STOPS_PER_REQUEST - 1) [0]).length = 1
    ∧ ¬ ([0] : List Nat).Perm (List.range 26) := by
  refine ⟨?_, rfl, ?_⟩
  · simp only [optimize_route_with_routes_api, List.length_replicate]
    rw [if_pos (by decide), savings_zero27]
    decide
  · intro h
    have hl := h.length_eq
    simp at hl

/-- One unfolding step of the fueled nearest-neighbor loop. -/
lemma nnLoopFuel_succ (c : List Coord) (fuel : Nat) (p : Coord) (r : List Nat) :
    nnLoopFuel c (fuel + 1) p r
      = match findNearest c p r with
        | none => []
        | some nearest_idx =>
            nearest_idx ::
              nnLoopFuel c fuel (c.getD nearest_idx (0, 0)) (r.erase nearest_idx) :=
  rfl

/-- The 26-stop input used to separate the `None`-matrix fallback from the
nearest-neighbor heuristic: stop 1 coincides with the depot, so any
nearest-neighbor run must visit it first, while stop 0 sits farther away. -/
def c4Stops : List Coord := (1, 0) :: (0, 0) :: List.replicate 24 (2, 0)

/-- **C4**, counterexample.  The claim says that when the provider returns
absent matrices the engine produces its sequence *via the Nearest-Neighbor
fallback heuristic*.  For more than 25 stops with absent matrices the code
instead returns the stops in their original order
(`list(range(len(location_coords)))`, source line 215); on `c4Stops` that
identity order differs from the nearest-neighbor order, whose first stop
must be stop 1 (distance 0 from the depot), not stop 0. -/
theorem c4_counterexample :
    optimize_route_with_routes_api (0, 0) c4Stops none = some (List.range 26)
    ∧ optimize_route_with_routes_api (0, 0) c4Stops none
        ≠ some (nearestNeighborRoute (0, 0) c4Stops) := by
  have hfirst : optimize_route_with_routes_api (0, 0) c4Stops none
      = some (List.range 26) := by decide
  refine ⟨hfirst, ?_⟩
  rw [hfirst]
  intro h
  have heq : nearestNeighborRoute (0, 0) c4Stops = List.range 26 :=
    (Option.some.inj h).symm
  cases hf : findNearest c4Stops (0, 0) (List.range 26) with
  | none =>
    have hnil := (findNearest_eq_none_iff c4Stops (0, 0) (List.range 26)).mp hf
    exact absurd hnil (by decide)
  | some i =>
    have hhead : (nearestNeighborRoute (0, 0) c4Stops).head? = some i := by
      show (nnLoopFuel c4Stops (25 + 1) (0, 0) (List.range 26)).head? = some i
      rw [nnLoopFuel_succ, hf]
      rfl
    rw [heq] at hhead
    have hzero : (List.range 26).head? = some 0 := by decide
    rw [hzero] at hhead
    have hi : i = 0 := (Option.some.inj hhead).symm
    subst hi
    have hmin := findNearest_first_min c4Stops (0, 0) (List.range 26)
      (List.pairwise_lt_range 26) 0 hf
    have h01 := (hmin.2 1 (by decide)).1
    have hcon : ¬ (nnDist c4Stops (0, 0) 0 ≤ nnDist c4Stops (0, 0) 1) := by
      show ¬ (sqDist (0, 0) ((1 : ℚ), (0 : ℚ)) ≤ sqDist (0, 0) ((0 : ℚ), (0 : ℚ)))
      unfold sqDist
      norm_num
    exact hcon h01

/-- **C4**, amended.  For any driver input with at least 2 validly geocoded
stops and an absent-matrix provider, the engine still produces a valid
non-empty stop sequence (a permutation of all stop indices) without
failing; it is produced by the Nearest-Neighbor heuristic when the stop
count is within the provider limit (where the provider is never consulted),
and it equals the original input order `list(range(n))` whenever the stop
count exceeds the limit. -/
theorem c4_amended_fallback (start_coords : Coord) (location_coords : List Coord)
    (h2 : 2 ≤ location_coords.length) :
    optimize_route_with_routes_api start_coords location_coords none
      = some ((optimize_route_with_routes_api start_coords location_coords none).getD [])
    ∧ ((optimize_route_with_routes_api start_coords location_coords none).getD []).Perm
        (List.range location_coords.length)
    ∧ (optimize_route_with_routes_api start_coords location_coords none).getD [] ≠ []
    ∧ (location_coords.length ≤ MAX_STOPS_PER_REQUEST →
        (optimize_route_with_routes_api start_coords location_coords none).getD []
          = nearestNeighborRoute start_coords location_coords)
    ∧ (MAX_STOPS_PER_REQUEST < location_coords.length →
        (optimize_route_with_routes_api start_coords location_coords none).getD []
          = List.range location_coords.length) := by
  by_cases hbig : location_coords.length + 1 > MAX_STOPS_PER_REQUEST + 1
  · have hres : optimize_route_with_routes_api start_coords location_coords none
        = some (List.range location_coords.length) := by
      simp only [optimize_route_with_routes_api]
      rw [if_pos hbig]
    rw [hres]
    refine ⟨rfl, List.Perm.refl _, ?_, ?_, fun _ => rfl⟩
    · show List.range location_coords.length ≠ []
      rw [Ne, List.range_eq_nil]
      omega
    · intro hle
      exfalso
      unfold MAX_STOPS_PER_REQUEST at hbig hle
      omega
  · have hres : optimize_route_with_routes_api start_coords location_coords none
        = some (nearestNeighborRoute start_coords location_coords) := by
      simp only [optimize_route_with_routes_api]
      rw [if_neg hbig]
    rw [hres]
    have hperm := nearestNeighborRoute_perm start_coords location_coords
    refine ⟨rfl, hperm, ?_, fun _ => rfl, ?_⟩
    · show nearestNeighborRoute start_coords location_coords ≠ []
      intro hnil
      have hlen := hperm.length_eq
      rw [hnil] at hlen
      simp only [List.length_nil, List.length_range] at hlen
      omega
    · intro hgt
      exfalso
      unfold MAX_STOPS_PER_REQUEST at hbig hgt
      omega

/-- **C5** (confirmed).  For a sequenced route of exactly 3 stops with the
fixed timing constants (day start 09:00, depot-to-first 20 min, inter-stop
8 min, service 5 min), the per-stop estimated arrival times are 09:20,
09:33 and 09:46, and the reported total one-way trip duration is
`20 + (k−1)·8 + k·5 = 51` minutes with no depot-return leg. -/
theorem c5_eta_estimator :
    etaArrivals 3 = ["09:20", "09:33", "09:46"]
    ∧ estimatedRouteDuration 3 = 20 + (3 - 1) * 8 + 3 * 5
    ∧ estimatedRouteDuration 3 = 51 := by
  refine ⟨?_, rfl, by decide⟩
  rfl

/-- **C6** (confirmed).  If the Matrix Builder's provider call fails in any
way — a raised transport/decode exception or a non-`"OK"` top-level status —
it returns the absent pair `(None, None)` (and, being total here, raises
nothing to its caller; every exception inside the source body is caught by
its `except` and converted to the same absent pair).  On success, a cell
whose element reports a `duration_in_traffic` value has that value override
the base duration in the duration matrix. -/
theorem c6_matrix_builder_contract (locations : List Coord) (resp : DMResponse) :
    (resp = DMResponse.exn → calculate_distance_matrix locations resp = none)
    ∧ (∀ data, resp = DMResponse.ok data → data.status ≠ "OK" →
        calculate_distance_matrix locations resp = none)
    ∧ (∀ data dm dur, resp = DMResponse.ok data →
        calculate_distance_matrix locations resp = some (dm, dur) →
        ∀ i j row e v, i < locations.length → j < locations.length →
          data.rows.get? i = some row → row.get? j = some e →
          e.status = "OK" → e.durationInTraffic = some (some v) →
          matCell dur i j = v) := by
  refine ⟨?_, ?_, ?_⟩
  · intro h
    subst h
    rfl
  · intro data h hstatus
    subst h
    simp only [calculate_distance_matrix]
    rw [if_neg hstatus]
  · intro data dm dur h hcalc i j row e v hi hj hrow he hok htr
    subst h
    simp only [calculate_distance_matrix] at hcalc
    by_cases hst : data.status = "OK"
    · rw [if_pos hst] at hcalc
      by_cases hoob : hasOutOfBoundsWrite locations.length data.rows = true
      · rw [if_pos hoob] at hcalc
        exact absurd hcalc (by simp)
      · rw [if_neg hoob] at hcalc
        have hpair := Option.some.inj hcalc
        have hdur : dur = buildMatrix locations.length data.rows elementDuration :=
          (congrArg Prod.snd hpair).symm
        rw [hdur, matCell_buildMatrix _ _ _ i j hi hj]
        simp only [hrow, he]
        rw [if_pos hok]
        unfold elementDuration
        rw [htr]
        rfl
    · rw [if_neg hst] at hcalc
      exact absurd hcalc (by simp)

/-- The sample Distance Matrix response used to exercise the success branch
of the Matrix Builder: cell (0,0) carries a traffic-aware duration `7`
overriding base duration `2`; cell (1,0) carries a `duration_in_traffic`
dict without a usable value (fallback to base `6`); cell (1,1) failed. -/
def c6SampleRows : List (List MatrixElement) :=
  [[⟨"OK", 1, 2, some (some 7)⟩, ⟨"OK", 3, 4, none⟩],
   [⟨"OK", 5, 6, some none⟩, ⟨"NOT_FOUND", 9, 9, none⟩]]

/-- Witness for `c6_matrix_builder_contract` at concrete inputs: an
exception yields the absent pair, a `REQUEST_DENIED` status yields the
absent pair, and the traffic-aware duration `7` lands in cell (0,0). -/
theorem c6_matrix_builder_contract_witness :
    calculate_distance_matrix [((0 : ℚ), (0 : ℚ)), (1, 1)] DMResponse.exn = none
    ∧ calculate_distance_matrix [((0 : ℚ), (0 : ℚ))]
        (DMResponse.ok ⟨"REQUEST_DENIED", []⟩) = none
    ∧ matCell [[7, 4], [6, 0]] 0 0 = 7 := by
  refine ⟨(c6_matrix_builder_contract [((0 : ℚ), (0 : ℚ)), (1, 1)]
      DMResponse.exn).1 rfl,
    (c6_matrix_builder_contract [((0 : ℚ), (0 : ℚ))]
      (DMResponse.ok ⟨"REQUEST_DENIED", []⟩)).2.1 ⟨"REQUEST_DENIED", []⟩ rfl
      (by decide), ?_⟩
  exact (c6_matrix_builder_contract [((0 : ℚ), (0 : ℚ)), (1, 1)]
      (DMResponse.ok ⟨"OK", c6SampleRows⟩)).2.2 ⟨"OK", c6SampleRows⟩
      [[1, 3], [5, 0]] [[7, 4], [6, 0]] rfl (by decide) 0 0
      [⟨"OK", 1, 2, some (some 7)⟩, ⟨"OK", 3, 4, none⟩]
      ⟨"OK", 1, 2, some (some 7)⟩ 7 (by decide) (by decide) rfl rfl rfl rfl

/-- **C7** (confirmed).  For every depot coordinate and every list of `k`
stop coordinates, the Nearest-Neighbor heuristic terminates after exactly
`k` selection iterations, each appending one previously unvisited stop: the
route has length `k`, repeats no stop, and is a permutation of
`{0, …, k − 1}`. -/
theorem c7_nn_terminates_permutation (start_coords : Coord)
    (location_coords : List Coord) :
    (nearestNeighborRoute start_coords location_coords).length
        = location_coords.length
    ∧ (nearestNeighborRoute start_coords location_coords).Nodup
    ∧ (nearestNeighborRoute start_coords location_coords).Perm
        (List.range location_coords.length) := by
  have h := nearestNeighborRoute_perm start_coords location_coords
  refine ⟨?_, ?_, h⟩
  · rw [h.length_eq, List.length_range]
  · exact h.nodup_iff.mpr (List.nodup_range _)

/-- **C10** (confirmed).  The chunk-local optimizer
`optimize_chunk_with_routes_api` computes exactly the same permutation as
the nearest-neighbor loop used for full routes in
`optimize_route_with_routes_api`: the two duplicated implementations are
equivalent functions. -/
theorem c10_chunk_optimizer_equals_nn (start_coords : Coord)
    (coords : List Coord) :
    optimize_chunk_with_routes_api start_coords coords
      = nearestNeighborRoute start_coords coords := by
  unfold optimize_chunk_with_routes_api nearestNeighborRoute
  exact chunkLoopFuel_eq coords coords.length start_coords (List.range coords.length)

/-- Witness for `c4_amended_fallback` at a concrete 2-stop input. -/
theorem c4_amended_fallback_witness :
    optimize_route_with_routes_api (0, 0) [((1 : ℚ), (0 : ℚ)), (2, 0)] none
      = some ((optimize_route_with_routes_api (0, 0)
          [((1 : ℚ), (0 : ℚ)), (2, 0)] none).getD [])
    ∧ ((optimize_route_with_routes_api (0, 0)
          [((1 : ℚ), (0 : ℚ)), (2, 0)] none).getD []).Perm (List.range 2)
    ∧ (optimize_route_with_routes_api (0, 0)
          [((1 : ℚ), (0 : ℚ)), (2, 0)] none).getD [] ≠ []
    ∧ ((2 : Nat) ≤ MAX_STOPS_PER_REQUEST →
        (optimize_route_with_routes_api (0, 0)
            [((1 : ℚ), (0 : ℚ)), (2, 0)] none).getD []
          = nearestNeighborRoute (0, 0) [((1 : ℚ), (0 : ℚ)), (2, 0)])
    ∧ (MAX_STOPS_PER_REQUEST < (2 : Nat) →
        (optimize_route_with_routes_api (0, 0)
            [((1 : ℚ), (0 : ℚ)), (2, 0)] none).getD []
          = List.range 2) :=
  c4_amended_fallback (0, 0) [((1 : ℚ), (0 : ℚ)), (2, 0)] (by decide)

/-- **C8** (confirmed).  The Nearest-Neighbor heuristic is deterministic:
identical depot and identical ordered stop lists yield the identical output
order (the embedding is a pure function of its inputs, matching the
source's single-threaded loop over in-memory lists).  Moreover the
selection made in each iteration resolves distance ties to the
first-encountered index of the unvisited scan order, which — the unvisited
set being `range k` with elements only ever removed — is the lowest
unvisited index. -/
theorem c8_nn_deterministic_tiebreak (location_coords : List Coord)
    (start_coords : Coord) :
    (∀ s' c', s' = start_coords → c' = location_coords →
        nearestNeighborRoute s' c'
          = nearestNeighborRoute start_coords location_coords)
    ∧ (∀ (cur : Coord) (remaining : List Nat) (i : Nat),
        remaining.Pairwise (· < ·) →
        findNearest location_coords cur remaining = some i →
        i ∈ remaining ∧ ∀ j ∈ remaining,
          nnDist location_coords cur i ≤ nnDist location_coords cur j
          ∧ (nnDist location_coords cur j = nnDist location_coords cur i →
              i ≤ j)) := by
  refine ⟨fun s' c' hs hc => by rw [hs, hc], ?_⟩
  intro cur remaining i hsort h
  exact findNearest_first_min location_coords cur remaining hsort i h

/-- Witness for `c8_nn_deterministic_tiebreak`: on stops
`[(1,0), (1,0), (3,0)]` from depot `(0,0)`, the first selection is stop 0 —
a minimizer that beats the equidistant stop 1 by index order. -/
theorem c8_nn_deterministic_tiebreak_witness :
    nearestNeighborRoute (0, 0) [((1 : ℚ), (0 : ℚ)), (1, 0), (3, 0)]
      = nearestNeighborRoute (0, 0) [((1 : ℚ), (0 : ℚ)), (1, 0), (3, 0)]
    ∧ (0 : Nat) ∈ ([0, 1, 2] : List Nat)
    ∧ nnDist [((1 : ℚ), (0 : ℚ)), (1, 0), (3, 0)] (0, 0) 0
        ≤ nnDist [((1 : ℚ), (0 : ℚ)), (1, 0), (3, 0)] (0, 0) 2
    ∧ (0 : Nat) ≤ 1 := by
  have hfn : findNearest [((1 : ℚ), (0 : ℚ)), (1, 0), (3, 0)] (0, 0) [0, 1, 2]
      = some 0 := by
    norm_num [findNearest, nnScanStep, sqDist, List.foldl]
  have h := (c8_nn_deterministic_tiebreak
      [((1 : ℚ), (0 : ℚ)), (1, 0), (3, 0)] (0, 0)).2 (0, 0) [0, 1, 2] 0
      (by decide) hfn
  exact ⟨(c8_nn_deterministic_tiebreak
      [((1 : ℚ), (0 : ℚ)), (1, 0), (3, 0)] (0, 0)).1 (0, 0)
      [((1 : ℚ), (0 : ℚ)), (1, 0), (3, 0)] rfl rfl, h.1, (h.2 2 (by decide)).1,
    (h.2 1 (by decide)).2 rfl⟩

/-- **C9** (confirmed).  For depot `(0,0)` and stops
`[(1,0), (5,0), (2,0)]`, the Nearest-Neighbor heuristic (Euclidean distance
on raw longitude/latitude) returns `[0, 2, 1]`: `(1,0)` first, then
`(2,0)`, then `(5,0)`. -/
theorem c9_end_to_end_scenario :
    nearestNeighborRoute (0, 0) [(1, 0), (5, 0), (2, 0)] = [0, 2, 1] := by
  show nnLoopFuel [(1, 0), (5, 0), (2, 0)] 3 (0, 0) [0, 1, 2] = [0, 2, 1]
  norm_num [nnLoopFuel, findNearest, nnScanStep, sqDist, List.foldl]
